import Mathlib

/-!
A shallow embedding of the supplemental virtual-memory subsystem of a
teaching-grade kernel (files `vm/vm.c`, `vm/anon.c`, `vm/file.c`), together
with theorems settling the behavioural claims about it.

Machine integers are modelled as `Nat`/`Int` with explicit `% 2^w` where C
overflow or unsigned conversion matters.  Virtual addresses, kernel virtual
addresses and byte contents are `Nat`.  Swap sector numbers are `Int`
(`page->sec_no` holds `-1` for "not swapped").  Kernel operations whose C
counterparts fail an assertion or dereference a null pointer are embedded as
`Option`-valued functions returning `none` there.
-/

namespace PintosVM

/-! ## Constants (`vm.h`, `vaddr.h`, `disk.h`) -/

/-- Page size in bytes. -/
def PGSIZE : Nat := 4096

/-- Size of one disk sector in bytes. -/
def DISK_SECTOR_SIZE : Nat := 512

/-- `PGSIZE / DISK_SECTOR_SIZE`. -/
def SECTORS_PER_PAGE : Nat := 8

/-- Top of the user stack region (`USER_STACK`). -/
def USER_STACK : Nat := 0x47480000

/-- Modelled from the spec: `vm.h` is not under `src/`; the spec defines
`STACK_FLOOR = USER_STACK_TOP - 1 MiB` as the allowed maximum stack extent
(`VM_STACKSIZE_LIMIT` in the source). -/
def VM_STACKSIZE_LIMIT : Nat := USER_STACK - 0x100000

/-- Page type tag: not-yet-initialized page. -/
def VM_UNINIT : Nat := 0

/-- Page type tag: anonymous page. -/
def VM_ANON : Nat := 1

/-- Page type tag: file-backed page. -/
def VM_FILE : Nat := 2

/-- Modelled from the spec: `vm.h` is not under `src/`; the spec says
`VM_MARKER_0` (the stack marker) is OR-ed into the type, on top of the
three-valued base tag, so it is the lowest auxiliary bit. -/
def VM_MARKER_0 : Nat := 8

/-- Modelled from the spec: `VM_TYPE(type)` extracts the base tag
(`VM_UNINIT`/`VM_ANON`/`VM_FILE`) below the marker bits. -/
def VM_TYPE (ty : Nat) : Nat := ty % 8

/-- Modelled from the spec: a type carries the stack marker iff the
`VM_MARKER_0` bit is set. -/
def VM_IS_STACK (ty : Nat) : Bool := ty / 8 % 2 = 1

/-- `pg_round_down`: round a virtual address down to a page boundary. -/
def pg_round_down (a : Nat) : Nat := a - a % PGSIZE

/-! ## Pages and the supplemental page table (`vm.c`)

A `struct page` as the claims need it.  `operations` holds the current
dispatch table's type tag (`none` directly after `calloc`, before
`uninit_new` or an initializer has run).  `uninit_type` is `page->uninit.type`
as stored by `uninit_new`.  `frame` is the kernel virtual address of the
linked frame, `none` when no frame backs the page. -/

structure Page where
  va : Nat
  writable : Bool
  page_cnt : Nat
  sec_no : Int
  operations : Option Nat
  uninit_type : Nat
  frame : Option Nat
deriving Repr, DecidableEq

/-- The page produced by `calloc (1, sizeof(struct page))`: every field zero
(null pointers become `none`). -/
def calloc_page : Page :=
  { va := 0, writable := false, page_cnt := 0, sec_no := 0,
    operations := none, uninit_type := 0, frame := none }

/-- The supplemental page table's hash index `pages : va -> page`.
`spt_find_page` keys on the exact `va`. -/
def SPT : Type := Nat → Option Page

/-- `spt_find_page`: hash lookup by virtual address. -/
def spt_find_page (spt : SPT) (va : Nat) : Option Page := spt va

/-- `spt_insert_page` on a key that is not yet present (the only way the
source reaches it): record the page under its `va`. -/
def spt_insert_page (spt : SPT) (p : Page) : SPT :=
  fun v => if v = p.va then some p else spt v

/-- `uninit_new (page, va, init, type, aux, page_initializer)`: fill the
freshly calloc-ed page as an uninit page remembering its eventual type. -/
def uninit_new (upage : Nat) (ty : Nat) : Page :=
  { calloc_page with
    va := upage
    operations := some VM_UNINIT
    uninit_type := ty }

/-- Modelled from the spec: `uninit.c` (the uninit variant's `swap_in`,
`uninit_swap_in`) is not under `src/`.  Per the spec, the first fault on
an Uninit page transitions it to its recorded Anon/File variant (the variant
initializers `anon_initializer`/`file_backed_initializer` in `src/` always
return true) and then runs the Init payload's callback on the aux record;
a null callback is treated as success.  `initDone` is the callback's result
(`none` models a null `init` pointer). -/
def uninit_swap_in (p : Page) (initDone : Option Bool) : Page × Bool :=
  ({ p with operations := some (VM_TYPE p.uninit_type) }, initDone.getD true)

/-- `vm_do_claim_page` restricted to a fresh uninit page, as invoked from
`vm_alloc_page_with_initializer`'s stack path: link the frame obtained from
`vm_get_frame` (its kernel virtual address `kva`; `vm_get_frame` never
returns null — it panics when memory and swap are both full), install the
mapping, and run `swap_in`, which for an uninit page is
`uninit_swap_in`. -/
def vm_do_claim_uninit (p : Page) (kva : Nat) (initDone : Option Bool) :
    Page × Bool :=
  let linked := { p with frame := some kva }
  uninit_swap_in linked initDone

/-- `vm_alloc_page_with_initializer (type, upage, writable, init, aux)`
(`vm.c:48-90`).  The state is the current thread's SPT; `initDone` stands for
the passed `init` callback's eventual result (`none` = null callback) and
`kva` for the frame `vm_get_frame` hands out on the stack path.  Returns the
C return value paired with the updated SPT. -/
def vm_alloc_page_with_initializer (spt : SPT) (ty upage : Nat)
    (writable : Bool) (initDone : Option Bool) (kva : Nat) : Bool × SPT :=
  if spt_find_page spt upage = none then
    if VM_TYPE ty = VM_ANON ∨ VM_TYPE ty = VM_FILE then
      let page0 := uninit_new upage ty
      let page1 :=
        { page0 with
          writable := writable
          page_cnt := 0
          sec_no := -1 }
      let spt1 := spt_insert_page spt page1
      if VM_IS_STACK ty then
        let claimed := vm_do_claim_uninit page1 kva initDone
        (claimed.2, spt_insert_page spt claimed.1)
      else
        (true, spt1)
    else
      (false, spt)
  else
    (false, spt)

/-! ## mmap (`file.c:126-184`)

`do_mmap` consults the file only through `file_length`, so a file is
represented here by its length (`off_t`, hence `Int`).  The C local
`readable_bytes` is a `uint32_t`: the signed 64-bit difference
`file_length (file) - offset` is converted by taking it modulo `2^32`, and
the guard `readable_bytes <= 0` on that unsigned variable only catches
`readable_bytes == 0`. -/

/-- The mmap-relevant process state: the SPT hash and the mmap list (virtual
addresses of the region head pages, in list order). -/
structure MmapState where
  spt : SPT
  mmap_list : List Nat

/-- `readable_bytes = file_length (file) - offset` as computed into the
`uint32_t` local: the `int64` difference reduced modulo `2^32`. -/
def mmap_readable_bytes (flen offset : Int) : Nat :=
  ((flen - offset).emod (2 ^ 32)).toNat

/-- The number of pages in the span `do_mmap` checks and allocates:
`read_bytes = min (length, readable_bytes)` rounded up by
`zero_bytes = PGSIZE - read_bytes % PGSIZE` (a full extra page when
`read_bytes` is already a multiple of `PGSIZE`, exactly as in the source). -/
def mmap_span_pages (length : Nat) (flen offset : Int) : Nat :=
  let readable := mmap_readable_bytes flen offset
  let read_bytes := if length ≤ readable then length else readable
  (read_bytes + (PGSIZE - read_bytes % PGSIZE)) / PGSIZE

/-- `do_mmap (addr, length, writable, file, offset)` (`file.c:126-184`).
Returns the C return value (`none` = `NULL`) with the updated state.  The
allocation loop runs `vm_alloc_page_with_initializer (VM_FILE, ...)` on each
page of the span (never stack-marked, so the claim path is not taken), then
records `page_cnt` on the head page and appends it to the mmap list. -/
def do_mmap (st : MmapState) (addr length : Nat) (writable : Bool)
    (flen offset : Int) : Option Nat × MmapState :=
  if mmap_readable_bytes flen offset = 0 then (none, st)
  else
    let n := mmap_span_pages length flen offset
    if (List.range n).any
        (fun i => (spt_find_page st.spt (addr + i * PGSIZE)).isSome) then
      (none, st)
    else
      let spt1 := (List.range n).foldl
        (fun s i =>
          (vm_alloc_page_with_initializer s VM_FILE (addr + i * PGSIZE)
            writable (some true) 0).2)
        st.spt
      let spt2 := fun v =>
        if v = addr then (spt1 addr).map (fun p => { p with page_cnt := n })
        else spt1 v
      (some addr, { spt := spt2, mmap_list := st.mmap_list ++ [addr] })

/-! ## Swap pool and anonymous pages (`anon.c`, `vm.c:269-347`)

The swap pool is the pair of intrusive lists `swap_free`/`swap_used`, whose
elements are `struct swap` records identified by their starting sector
`sec_no`, plus the swap disk.  A 512-byte sector payload is opaque to this
code — `disk_read`/`disk_write`/`memcpy` only move sectors whole — so one
sector's contents are one `Nat`. -/

/-- The shared swap-pool state: free and used slot lists (each slot by its
`sec_no`) and the swap disk's contents, sector number to payload. -/
structure SwapSt where
  swap_free : List Int
  swap_used : List Int
  disk : Int → Nat
deriving Inhabited

/-- An anonymous page as the swap engine sees it: its `sec_no` link (`-1`
when not swapped) and its 4-KiB contents as the 8 sector-sized chunks the
copy loops move. -/
structure APage where
  sec_no : Int
  mem : Fin 8 → Nat
deriving Inhabited

/-- The disk after `anon_swap_out`'s write loop (`anon.c:131-144`): the 8
chunks of `m` stored at sectors `[s, s+8)`. -/
def write_page (d : Int → Nat) (s : Int) (m : Fin 8 → Nat) : Int → Nat :=
  fun n => if h : s ≤ n ∧ n < s + 8 then m ⟨(n - s).toNat, by omega⟩ else d n

/-- `anon_swap_out` (`anon.c:115-147`): pop the head of the free list (the
kernel's `list_pop_front` asserts on an empty list, embedded as `none`),
push it onto the used list head, record its sector in `page->sec_no`, and
write the page's 8 chunks to the swap disk.  Returns the new pool state, the
updated page, and the C return value. -/
def anon_swap_out (st : SwapSt) (p : APage) : Option (SwapSt × APage × Bool) :=
  match st.swap_free with
  | [] => none
  | s :: rest =>
    some ({ swap_free := rest
            swap_used := s :: st.swap_used
            disk := write_page st.disk s p.mem },
          { p with sec_no := s }, true)

/-- `anon_swap_in` (`anon.c:70-112`): find the first used slot whose
`sec_no` equals `page->sec_no` (the `ASSERT` that the search succeeded is
embedded as `none`), move it to the free list head, clear `page->sec_no` to
`-1`, and read the slot's 8 sectors into the page. -/
def anon_swap_in (st : SwapSt) (p : APage) : Option (SwapSt × APage × Bool) :=
  if p.sec_no ∈ st.swap_used then
    some ({ st with
            swap_used := st.swap_used.erase p.sec_no
            swap_free := p.sec_no :: st.swap_free },
          { sec_no := -1, mem := fun i => st.disk (p.sec_no + (i.val : Int)) },
          true)
  else none

/-- `anon_destroy` (`anon.c:150-198`) restricted to its effect on the swap
pool: when the page is swapped (`sec_no > -1`), its slot moves from the used
list to the free list head (the search loop has no guard, so a missing slot
would unlink the list sentinel — embedded as `none`); otherwise only the
frame list is touched and the pool is unchanged. -/
def anon_destroy_swap (st : SwapSt) (p : APage) : Option (SwapSt × APage) :=
  if p.sec_no > -1 then
    if p.sec_no ∈ st.swap_used then
      some ({ st with
              swap_used := st.swap_used.erase p.sec_no
              swap_free := p.sec_no :: st.swap_free },
            { p with sec_no := -1 })
    else none
  else some (st, p)

/-- The sequential copy loop of `swap_copy` (`vm.c:300-307`) after `k`
iterations: iteration `i` reads sector `src + i` from the current disk into
`buf` and writes it to `dst + i`. -/
def copy_sectors (d : Int → Nat) (src dst : Int) : Nat → (Int → Nat)
  | 0 => d
  | k + 1 =>
    let dk := copy_sectors d src dst k
    fun n => if n = dst + (k : Int) then dk (src + (k : Int)) else dk n

/-- `swap_copy` (`vm.c:269-310`): find the source slot in the used list (its
`ASSERT` embedded as `none`), pop a free slot (`list_pop_front` on an empty
free list embedded as `none`) and push it onto the used list, then copy the
source slot's 8 sectors into it.  Returns the destination slot's starting
sector (the source's `dst_no - 8`). -/
def swap_copy (st : SwapSt) (p : APage) : Option (SwapSt × Int) :=
  if p.sec_no ∈ st.swap_used then
    match st.swap_free with
    | [] => none
    | d :: rest =>
      some ({ swap_free := rest
              swap_used := d :: st.swap_used
              disk := copy_sectors st.disk p.sec_no d 8 }, d)
  else none

/-- The swapped-page branch of `supplemental_page_table_copy`
(`vm.c:414-417`): `dstp->sec_no = swap_copy (srcp)` on the child page. -/
def fork_copy_swapped (st : SwapSt) (srcp dstp : APage) :
    Option (SwapSt × APage) :=
  (swap_copy st srcp).map (fun r => (r.1, { dstp with sec_no := r.2 }))

/-- The slot-seeding loop of `vm_anon_init` (`anon.c:40-49`): starting at
sector 0, append slots spaced `SECTORS_PER_PAGE` sectors apart to the free
list. -/
def seed_slots : Nat → Int → List Int
  | 0, _ => []
  | k + 1, sec => sec :: seed_slots k (sec + 8)

/-- The swap pool right after `vm_anon_init` (`anon.c:23-50`):
`available_pages = disk_size (swap_disk) * DISK_SECTOR_SIZE / PGSIZE` slots
(the product computed in 32-bit unsigned arithmetic) all on the free list,
the used list empty, the disk holding whatever it held. -/
def vm_anon_init_pool (ds : Nat) (d : Int → Nat) : SwapSt :=
  { swap_free := seed_slots (ds * DISK_SECTOR_SIZE % 2 ^ 32 / PGSIZE) 0
    swap_used := []
    disk := d }

/-! ## File-backed pages (`file.c:40-91`) -/

/-- A file as the file-backed engine sees it: length and byte contents. -/
structure CFile where
  len : Nat
  data : Nat → Nat

/-- The `struct aux` a file page carries: the per-page file handle, the file
offset, and the read/zero byte counts. -/
structure FAux where
  file : CFile
  ofs : Nat
  page_read_bytes : Nat
  page_zero_bytes : Nat

/-- The per-page machine state the file-backed handlers touch: the page's
bytes (indexed from the page start) and the MMU dirty bit of its `va`. -/
structure FPageSt where
  mem : Nat → Nat
  dirty : Bool

/-- `file_read_at (file, page->va, n, ofs)`: returns the number of bytes
actually read — `min n (len - ofs)`, zero when `ofs` is past the end — and
the page with bytes `data[ofs..ofs+count)` stored at its start.  The stores
go through the user mapping, so a nonzero count sets the MMU dirty bit. -/
def file_read_at (f : CFile) (st : FPageSt) (n ofs : Nat) : Nat × FPageSt :=
  let count := min n (f.len - ofs)
  (count,
   { mem := fun i => if i < count then f.data (ofs + i) else st.mem i
     dirty := if count = 0 then st.dirty else true })

/-- `file_write_at (file, page->va, n, ofs)`: write `n` bytes of the page
back to the file at `ofs` (at most up to the file's length — the filesystem
does not grow files here). -/
def file_write_at (f : CFile) (m : Nat → Nat) (n ofs : Nat) : CFile :=
  { f with
    data := fun j =>
      if ofs ≤ j ∧ j < ofs + min n (f.len - ofs) then m (j - ofs)
      else f.data j }

/-- `file_backed_swap_in` (`file.c:42-71`): capture the MMU dirty bit, read
`page_read_bytes` from `(file, ofs)` into the page — returning false on a
short read — zero-fill the `page_zero_bytes` tail (again a store through the
mapping), and restore the captured dirty bit. -/
def file_backed_swap_in (aux : FAux) (st : FPageSt) : Bool × FPageSt :=
  let old_dirty := st.dirty
  let r := file_read_at aux.file st aux.page_read_bytes aux.ofs
  if r.1 ≠ aux.page_read_bytes then (false, r.2)
  else
    let zeroed : FPageSt :=
      { mem := fun i =>
          if aux.page_read_bytes ≤ i ∧
              i < aux.page_read_bytes + aux.page_zero_bytes then 0
          else r.2.mem i
        dirty := if aux.page_zero_bytes = 0 then r.2.dirty else true }
    (true, { zeroed with dirty := old_dirty })

/-- The result of `file_backed_swap_out`: the C return value, the file, the
page state, and whether a `file_write_at` was issued. -/
structure FileSwapOutRes where
  ret : Bool
  file : CFile
  page : FPageSt
  wrote : Bool

/-- `file_backed_swap_out` (`file.c:74-91`): if the MMU dirty bit of the
page's `va` is set, write `page_read_bytes` back to `(file, ofs)` and clear
the dirty bit; otherwise issue no file I/O.  Always returns true. -/
def file_backed_swap_out (aux : FAux) (st : FPageSt) : FileSwapOutRes :=
  if st.dirty then
    { ret := true
      file := file_write_at aux.file st.mem aux.page_read_bytes aux.ofs
      page := { st with dirty := false }
      wrote := true }
  else
    { ret := true, file := aux.file, page := st, wrote := false }

/-! ## Page-fault handler (`vm.c:195-225`) -/

/-- The stack-growth test of `vm_try_handle_fault` (`vm.c:203-204`):
`rsp - 8 == addr` (64-bit pointer arithmetic, wrapping) or `rsp <= addr`
with `addr` in `[VM_STACKSIZE_LIMIT, USER_STACK)`. -/
def stack_heuristic (rsp addr : Nat) : Prop :=
  (rsp + 2 ^ 64 - 8) % 2 ^ 64 = addr ∨
    (rsp ≤ addr ∧ VM_STACKSIZE_LIMIT ≤ addr ∧ addr < USER_STACK)

instance (rsp addr : Nat) : Decidable (stack_heuristic rsp addr) := by
  unfold stack_heuristic
  infer_instance

/-- `vm_try_handle_fault (f, addr, user, write, not_present)`
(`vm.c:195-225`), as a function of the faulting state to the C return
value.  When the stack test holds, the handler claims the page found at
`pg_round_down addr` or grows the stack, and returns true unconditionally;
otherwise a missing SPT entry is a real fault (false), a user write to a
non-writable page fails (false), and otherwise the page is claimed.
`claimRes` stands for `vm_do_claim_page`'s result on the found page (its
variant dispatch is modelled separately); `np` is the unused `not_present`
argument. -/
def vm_try_handle_fault (claimRes : Page → Bool) (spt : SPT) (rsp addr : Nat)
    (user write np : Bool) : Bool :=
  if stack_heuristic rsp addr then true
  else
    match spt_find_page spt (pg_round_down addr) with
    | none => false
    | some page =>
      if user && write && !page.writable then false else claimRes page

/-! ## vm_claim_page (`vm.c:236-260`) -/

/-- The state `vm_do_claim_page` touches: the SPT hash, the frame list
(kernel virtual addresses), and the MMU page table `va -> (kva, writable)`.
-/
structure VMState where
  spt : SPT
  frames : List Nat
  pml4 : Nat → Option (Nat × Bool)

/-- The fresh page `vm_claim_page` builds (`vm.c:238-239`): a calloc-zeroed
page struct with only `va` filled in. -/
def vm_claim_page_fresh (va : Nat) : Page := { calloc_page with va := va }

/-- `vm_do_claim_page` (`vm.c:245-260`): get a frame from `vm_get_frame`
(which appends it to the frame list), link page and frame, install the MMU
mapping with the page's `writable` flag, and dispatch `swap_in` through
`page->operations` — a null dispatch table (as on a calloc-zeroed page) is
a null dereference, embedded as `none`; otherwise `swapIn` stands for the
variant's handler. -/
def vm_do_claim_page (swapIn : Page → Nat → Bool) (st : VMState) (page : Page)
    (kva : Nat) : VMState × Page × Option Bool :=
  let page1 := { page with frame := some kva }
  let st1 :=
    { st with
      frames := st.frames ++ [kva]
      pml4 := fun v =>
        if v = page.va then some (kva, page.writable) else st.pml4 v }
  (st1, page1,
   match page.operations with
   | none => none
   | some _ => some (swapIn page1 kva))

/-- `vm_claim_page (va)` (`vm.c:236-242`): calloc a fresh page struct, set
only its `va`, and hand it to `vm_do_claim_page` — never consulting or
modifying the SPT entry at `va`. -/
def vm_claim_page (swapIn : Page → Nat → Bool) (st : VMState) (va kva : Nat) :
    VMState × Page × Option Bool :=
  vm_do_claim_page swapIn st (vm_claim_page_fresh va) kva

/-! ## Concrete states used by counterexamples and witnesses -/

/-- The empty mmap state. -/
def mmap_empty : MmapState := { spt := fun _ => none, mmap_list := [] }

/-- An mmap state holding one page at virtual address `0x20001000`. -/
def mmap_st_c2 : MmapState :=
  { spt := fun v => if v = 0x20001000 then some (uninit_new 0x20001000 VM_FILE)
                    else none
    mmap_list := [] }

/-- A swap pool with one free slot at sector 16. -/
def swap_st_c4 : SwapSt := ⟨[16], [], fun _ => 0⟩

/-- A resident anonymous page (not swapped) holding chunk value 5. -/
def apage_c4 : APage := ⟨-1, fun _ => 5⟩

/-- A swap pool with one free slot (sector 8) and one used slot (sector 0). -/
def swap_st_c5 : SwapSt := ⟨[8], [0], fun _ => 0⟩

/-- An anonymous page whose contents sit in the used slot at sector 0. -/
def apage_c5 : APage := ⟨0, fun _ => 3⟩

/-- The result of `anon_swap_out` on the demo pool. -/
def c5_out : SwapSt × APage × Bool :=
  (anon_swap_out swap_st_c5 apage_c5).getD default

/-- The result of `anon_swap_in` on the demo pool. -/
def c5_in : SwapSt × APage × Bool :=
  (anon_swap_in swap_st_c5 apage_c5).getD default

/-- The result of `anon_destroy` (swap-pool part) on the demo pool. -/
def c5_destroy : SwapSt × APage :=
  (anon_destroy_swap swap_st_c5 apage_c5).getD default

/-- The result of `swap_copy` on the demo pool. -/
def c5_copy : SwapSt × Int :=
  (swap_copy swap_st_c5 apage_c5).getD default

/-- A swap pool for the fork-copy witness: free slot at sector 8, used slot
at sector 0, distinguishable disk contents. -/
def swap_st_c9 : SwapSt := ⟨[8], [0], fun n => n.toNat⟩

/-- The parent page, swapped out at sector 0. -/
def src_c9 : APage := ⟨0, fun _ => 0⟩

/-- The freshly allocated child page, not yet swapped. -/
def dst_c9 : APage := ⟨-1, fun _ => 0⟩

/-- A 5000-byte file whose byte `i` is `(i + 1) % 256`, mapped at offset
4096 with 904 read bytes and 3192 zero bytes (its second mmap page). -/
def faux_c6 : FAux := ⟨⟨5000, fun i => (i + 1) % 256⟩, 4096, 904, 3192⟩

/-- A clean page holding byte 7 everywhere. -/
def fpst_c6 : FPageSt := ⟨fun _ => 7, false⟩

/-- An SPT holding a single non-writable page at `0x1000`. -/
def spt_c8 : SPT :=
  fun v => if v = 0x1000 then some (uninit_new 0x1000 VM_ANON) else none

/-- An SPT holding one (uninit anonymous) page at virtual address 4096. -/
def spt_c1 : SPT :=
  fun v => if v = 4096 then some (uninit_new 4096 VM_ANON) else none

/-! # Theorems -/

/-! ## Helper lemmas about the swap-disk copy loops -/

/-- Reading back any of the 8 chunks `anon_swap_out` wrote. -/
theorem write_page_read (d : Int → Nat) (s : Int) (m : Fin 8 → Nat) (i : Fin 8) :
    write_page d s m (s + (i.val : Int)) = m i := by
  have hi := i.isLt
  simp only [write_page]
  rw [dif_pos (by omega : s ≤ s + (i.val : Int) ∧ s + (i.val : Int) < s + 8)]
  exact congrArg m (Fin.ext (show (s + (i.val : Int) - s).toNat = i.val by omega))

/-- The seeding loop pushes exactly `k` slots. -/
theorem seed_slots_length (k : Nat) (sec : Int) : (seed_slots k sec).length = k := by
  induction k generalizing sec with
  | zero => rfl
  | succ k ih => simp [seed_slots, ih]

/-- The copy loop leaves every sector outside its destination range
untouched. -/
theorem copy_sectors_outside (d0 : Int → Nat) (src dst : Int) (k : Nat) (n : Int)
    (h : ∀ j : Nat, j < k → n ≠ dst + (j : Int)) :
    copy_sectors d0 src dst k n = d0 n := by
  induction k with
  | zero => rfl
  | succ k ih =>
    simp only [copy_sectors]
    rw [if_neg (h k (by omega))]
    exact ih (fun j hj => h j (by omega))

/-- When the source and destination sector ranges are disjoint, the copy
loop transfers each source sector verbatim. -/
theorem copy_sectors_hit (d0 : Int → Nat) (src dst : Int) (k i : Nat)
    (hik : i < k) (hk : k ≤ 8)
    (hdisj : ∀ a b : Nat, a < 8 → b < 8 → src + (a : Int) ≠ dst + (b : Int)) :
    copy_sectors d0 src dst k (dst + (i : Int)) = d0 (src + (i : Int)) := by
  induction k with
  | zero => omega
  | succ k ih =>
    simp only [copy_sectors]
    by_cases hi : i = k
    · subst hi
      rw [if_pos rfl]
      exact copy_sectors_outside d0 src dst i (src + (i : Int))
        (fun j hj => hdisj i j (by omega) (by omega))
    · rw [if_neg (by omega)]
      exact ih (by omega) (by omega)

/-- C1 (counterexample): with a page already present at `va = 4096`,
`vm_alloc_page_with_initializer (VM_ANON, 4096, ...)` returns `false`, yet a
page at `va` is present in the SPT afterwards (the pre-existing one) — so
"returns true if and only if a page at va is present afterwards" is false at
this input. -/
theorem vm_alloc_existing_page_breaks_iff :
    (vm_alloc_page_with_initializer spt_c1 VM_ANON 4096 true none 7).1 = false ∧
    ((vm_alloc_page_with_initializer spt_c1 VM_ANON 4096 true none 7).2 4096).isSome
      = true := by
  decide

/-- C1 (amended): for `VM_TYPE type` being `VM_ANON` or `VM_FILE`, the call
returns `false` and leaves the SPT unchanged when a page already exists at
`va`; when no page exists at `va`, a page is present at `va` afterwards, the
call returns `true` iff (when `type` carries the stack marker) the immediate
claim's init callback succeeds — in particular it always returns `true` for
non-stack types — and when `type` carries the stack marker the page at `va`
has claimed a frame before the call returns. -/
theorem vm_alloc_page_with_initializer_spec (spt : SPT) (ty upage : Nat)
    (w : Bool) (initDone : Option Bool) (kva : Nat)
    (hty : VM_TYPE ty = VM_ANON ∨ VM_TYPE ty = VM_FILE) :
    (spt_find_page spt upage ≠ none →
      vm_alloc_page_with_initializer spt ty upage w initDone kva = (false, spt)) ∧
    (spt_find_page spt upage = none →
      ((vm_alloc_page_with_initializer spt ty upage w initDone kva).2 upage).isSome
        = true ∧
      ((vm_alloc_page_with_initializer spt ty upage w initDone kva).1 = true ↔
        (VM_IS_STACK ty = true → initDone.getD true = true)) ∧
      (VM_IS_STACK ty = true →
        ∀ p, (vm_alloc_page_with_initializer spt ty upage w initDone kva).2 upage
               = some p → p.frame = some kva)) := by
  constructor
  · intro h
    rw [vm_alloc_page_with_initializer, if_neg h]
  · intro h
    rw [vm_alloc_page_with_initializer, if_pos h, if_pos hty]
    by_cases hs : VM_IS_STACK ty
    · simp only [hs, if_pos]
      refine ⟨?_, ?_, ?_⟩
      · simp [spt_insert_page, vm_do_claim_uninit, uninit_swap_in, uninit_new,
              calloc_page]
      · simp [vm_do_claim_uninit, uninit_swap_in]
      · intro _ p hp
        simp [spt_insert_page, vm_do_claim_uninit, uninit_swap_in, uninit_new,
              calloc_page] at hp
        rw [← hp]
    · simp only [hs, if_neg, Bool.false_eq_true]
      refine ⟨?_, ?_, ?_⟩
      · simp [spt_insert_page, uninit_new, calloc_page]
      · simp
      · intro hcontra
        simp [hs] at hcontra

/-- C1 (witness): the amended theorem applied to the empty SPT and the
stack-marked anonymous type `VM_ANON ||| VM_MARKER_0 = 9`. -/
theorem vm_alloc_page_with_initializer_spec_witness :
    (VM_TYPE 9 = VM_ANON ∨ VM_TYPE 9 = VM_FILE) ∧
    ((vm_alloc_page_with_initializer (fun _ => none) 9 4096 true none 7).2 4096).isSome
      = true :=
  ⟨by decide,
   ((vm_alloc_page_with_initializer_spec (fun _ => none) 9 4096 true none 7
      (by decide)).2 rfl).1⟩

/-- C2: a `do_mmap` call whose page span (as the source computes it:
`read_bytes + zero_bytes` pages starting at `addr`) contains a virtual
address already present in the caller's SPT returns `NULL` and leaves the
state — SPT and mmap list — unchanged: the overlap check runs before any
allocation. -/
theorem do_mmap_overlap_rejected (st : MmapState) (addr length : Nat)
    (w : Bool) (flen offset : Int) (i : Nat)
    (hi : i < mmap_span_pages length flen offset)
    (hp : (spt_find_page st.spt (addr + i * PGSIZE)).isSome = true) :
    do_mmap st addr length w flen offset = (none, st) := by
  have hany : (List.range (mmap_span_pages length flen offset)).any
      (fun j => (spt_find_page st.spt (addr + j * PGSIZE)).isSome) = true :=
    List.any_eq_true.mpr ⟨i, List.mem_range.mpr hi, hp⟩
  by_cases h0 : mmap_readable_bytes flen offset = 0
  · rw [do_mmap, if_pos h0]
  · rw [do_mmap, if_neg h0]
    simp only [hany, if_true]

/-- C2 (witness): a second mmap of `[0x20000000, 0x20000000 + 2 pages)` over
a state already holding a page at `0x20001000` is rejected without any state
change (the spec's scenario 6). -/
theorem do_mmap_overlap_rejected_witness :
    1 < mmap_span_pages 8192 8192 0 ∧
    (spt_find_page mmap_st_c2.spt (0x20000000 + 1 * PGSIZE)).isSome = true ∧
    do_mmap mmap_st_c2 0x20000000 8192 true 8192 0 = (none, mmap_st_c2) :=
  ⟨by decide, by decide,
   do_mmap_overlap_rejected mmap_st_c2 0x20000000 8192 true 8192 0 1
     (by decide) (by decide)⟩

/-- C3 (code bug): with `file_length = 100` and `offset = 4096` the claim
(and the spec's precondition "offset within file, fail if
`min(length, file_length - offset) <= 0`") requires `do_mmap` to return
`NULL` without allocating.  The code computes `file_length - offset` into
the `uint32_t` local `readable_bytes`, where `-3996` wraps to `4294963300`,
and its `<= 0` guard on an unsigned value only catches `== 0`; so the call
goes on to allocate a page at `addr` and returns `addr`. -/
theorem do_mmap_offset_past_eof_allocates :
    (do_mmap mmap_empty 0x10000000 100 true 100 4096).1 = some 0x10000000 ∧
    ((do_mmap mmap_empty 0x10000000 100 true 100 4096).2.spt 0x10000000).isSome
      = true := by
  decide

/-- C4: for an anonymous page holding contents `c`, `anon_swap_out` followed
by `anon_swap_in` (both returning true) restores exactly `c` to the page,
leaves `sec_no = -1`, and moves the slot used in between back to the free
list, with the used list back to its original value. -/
theorem anon_swap_roundtrip (st : SwapSt) (p : APage) (s : Int) (rest : List Int)
    (hfree : st.swap_free = s :: rest) :
    ∃ st1 p1 st2 p2,
      anon_swap_out st p = some (st1, p1, true) ∧
      anon_swap_in st1 p1 = some (st2, p2, true) ∧
      p2.mem = p.mem ∧ p2.sec_no = -1 ∧ p1.sec_no = s ∧
      st2.swap_free = s :: rest ∧ st2.swap_used = st.swap_used := by
  obtain ⟨fr, us, dk⟩ := st
  obtain ⟨psec, pmem⟩ := p
  simp only at hfree
  subst hfree
  refine ⟨⟨rest, s :: us, write_page dk s pmem⟩, ⟨s, pmem⟩,
          ⟨s :: rest, us, write_page dk s pmem⟩,
          ⟨-1, fun i => write_page dk s pmem (s + (i.val : Int))⟩,
          rfl, ?_, ?_, rfl, rfl, rfl, rfl⟩
  · rw [anon_swap_in]
    rw [if_pos (List.mem_cons_self s us)]
    simp [List.erase_cons_head]
  · funext i
    exact write_page_read dk s pmem i

/-- C4 (witness): the round trip on a pool with one free slot at sector 16
and a page holding chunk value 5. -/
theorem anon_swap_roundtrip_witness :
    swap_st_c4.swap_free = 16 :: [] ∧
    (∃ st1 p1 st2 p2,
      anon_swap_out swap_st_c4 apage_c4 = some (st1, p1, true) ∧
      anon_swap_in st1 p1 = some (st2, p2, true) ∧
      p2.mem = apage_c4.mem ∧ p2.sec_no = -1 ∧ p1.sec_no = 16 ∧
      st2.swap_free = 16 :: [] ∧ st2.swap_used = swap_st_c4.swap_used) :=
  ⟨rfl, anon_swap_roundtrip swap_st_c4 apage_c4 16 [] rfl⟩

/-- C5: `|free| + |used|` is conserved.  At init it equals the pool size
seeded from the swap disk's capacity, and each of the four slot-moving
operations — `anon_swap_out`, `anon_swap_in`, the swap branch of
`anon_destroy`, and `swap_copy` — preserves it exactly (each moves one slot
between the lists, creating and destroying none). -/
theorem swap_pool_conservation :
    (∀ ds d, (vm_anon_init_pool ds d).swap_free.length
        + (vm_anon_init_pool ds d).swap_used.length
        = ds * DISK_SECTOR_SIZE % 2 ^ 32 / PGSIZE) ∧
    (∀ st p st1 p1 b, anon_swap_out st p = some (st1, p1, b) →
      st1.swap_free.length + st1.swap_used.length
        = st.swap_free.length + st.swap_used.length) ∧
    (∀ st p st1 p1 b, anon_swap_in st p = some (st1, p1, b) →
      st1.swap_free.length + st1.swap_used.length
        = st.swap_free.length + st.swap_used.length) ∧
    (∀ st p st1 p1, anon_destroy_swap st p = some (st1, p1) →
      st1.swap_free.length + st1.swap_used.length
        = st.swap_free.length + st.swap_used.length) ∧
    (∀ st p st1 n, swap_copy st p = some (st1, n) →
      st1.swap_free.length + st1.swap_used.length
        = st.swap_free.length + st.swap_used.length) := by
  refine ⟨?_, ?_, ?_, ?_, ?_⟩
  · intro ds d
    simp [vm_anon_init_pool, seed_slots_length]
  · intro st p st1 p1 b h
    obtain ⟨fr, us, dk⟩ := st
    cases fr with
    | nil => cases h
    | cons s rest =>
      simp only [anon_swap_out] at h
      simp only [Option.some.injEq, Prod.mk.injEq] at h
      obtain ⟨hst, -, -⟩ := h
      subst hst
      simp only [List.length_cons]
      omega
  · intro st p st1 p1 b h
    rw [anon_swap_in] at h
    by_cases hm : p.sec_no ∈ st.swap_used
    · rw [if_pos hm] at h
      simp only [Option.some.injEq, Prod.mk.injEq] at h
      obtain ⟨hst, -, -⟩ := h
      subst hst
      simp only [List.length_cons]
      have h1 := List.length_erase_of_mem hm
      have h2 := List.length_pos.mpr (List.ne_nil_of_mem hm)
      omega
    · rw [if_neg hm] at h
      cases h
  · intro st p st1 p1 h
    rw [anon_destroy_swap] at h
    by_cases hgt : p.sec_no > -1
    · rw [if_pos hgt] at h
      by_cases hm : p.sec_no ∈ st.swap_used
      · rw [if_pos hm] at h
        simp only [Option.some.injEq, Prod.mk.injEq] at h
        obtain ⟨hst, -⟩ := h
        subst hst
        simp only [List.length_cons]
        have h1 := List.length_erase_of_mem hm
        have h2 := List.length_pos.mpr (List.ne_nil_of_mem hm)
        omega
      · rw [if_neg hm] at h
        cases h
    · rw [if_neg hgt] at h
      simp only [Option.some.injEq, Prod.mk.injEq] at h
      obtain ⟨hst, -⟩ := h
      subst hst
      rfl
  · intro st p st1 n h
    obtain ⟨fr, us, dk⟩ := st
    rw [swap_copy] at h
    by_cases hm : p.sec_no ∈
        ({ swap_free := fr, swap_used := us, disk := dk } : SwapSt).swap_used
    · rw [if_pos hm] at h
      cases fr with
      | nil => cases h
      | cons d rest =>
        simp only [Option.some.injEq, Prod.mk.injEq] at h
        obtain ⟨hst, -⟩ := h
        subst hst
        simp only [List.length_cons]
        omega
    · rw [if_neg hm] at h
      cases h

/-- C5 (witness): the four slot-moving operations applied to the demo pool
(one free slot, one used slot) each preserve `|free| + |used| = 2`. -/
theorem swap_pool_conservation_witness :
    (anon_swap_out swap_st_c5 apage_c5 = some c5_out ∧
      c5_out.1.swap_free.length + c5_out.1.swap_used.length
        = swap_st_c5.swap_free.length + swap_st_c5.swap_used.length) ∧
    (anon_swap_in swap_st_c5 apage_c5 = some c5_in ∧
      c5_in.1.swap_free.length + c5_in.1.swap_used.length
        = swap_st_c5.swap_free.length + swap_st_c5.swap_used.length) ∧
    (anon_destroy_swap swap_st_c5 apage_c5 = some c5_destroy ∧
      c5_destroy.1.swap_free.length + c5_destroy.1.swap_used.length
        = swap_st_c5.swap_free.length + swap_st_c5.swap_used.length) ∧
    (swap_copy swap_st_c5 apage_c5 = some c5_copy ∧
      c5_copy.1.swap_free.length + c5_copy.1.swap_used.length
        = swap_st_c5.swap_free.length + swap_st_c5.swap_used.length) :=
  ⟨⟨rfl, swap_pool_conservation.2.1 swap_st_c5 apage_c5 _ _ _ rfl⟩,
   ⟨rfl, swap_pool_conservation.2.2.1 swap_st_c5 apage_c5 _ _ _ rfl⟩,
   ⟨rfl, swap_pool_conservation.2.2.2.1 swap_st_c5 apage_c5 _ _ rfl⟩,
   ⟨rfl, swap_pool_conservation.2.2.2.2 swap_st_c5 apage_c5 _ _ rfl⟩⟩

/-- C9: on a well-formed pool (free head `d` not on the used list, slots
8-sector aligned), copying a swapped parent page at fork takes the fresh
slot `d` distinct from the parent's slot, copies all eight parent sectors
into it verbatim, records `d` as the child page's `sec_no`, and leaves the
parent's slot contents (and the parent page itself) unchanged. -/
theorem swap_copy_fresh_identical (st : SwapSt) (srcp dstp : APage)
    (d : Int) (rest : List Int)
    (hfree : st.swap_free = d :: rest)
    (hs : srcp.sec_no ∈ st.swap_used)
    (hd : d ∉ st.swap_used)
    (hsal : (8 : Int) ∣ srcp.sec_no) (hdal : (8 : Int) ∣ d)
    (hswapped : srcp.sec_no > -1) :
    ∃ st1, fork_copy_swapped st srcp dstp
        = some (st1, { dstp with sec_no := d }) ∧
      st1.swap_free = rest ∧
      st1.swap_used = d :: st.swap_used ∧
      d ≠ srcp.sec_no ∧
      (∀ i : Nat, i < 8 → st1.disk (srcp.sec_no + (i : Int))
          = st.disk (srcp.sec_no + (i : Int))) ∧
      (∀ i : Nat, i < 8 → st1.disk (d + (i : Int))
          = st.disk (srcp.sec_no + (i : Int))) := by
  have hne : d ≠ srcp.sec_no := fun he => hd (he ▸ hs)
  have hdisj : ∀ a b : Nat, a < 8 → b < 8 →
      srcp.sec_no + (a : Int) ≠ d + (b : Int) := by
    intro a b ha hb
    omega
  obtain ⟨fr, us, dk⟩ := st
  simp only at hfree
  subst hfree
  refine ⟨⟨rest, d :: us, copy_sectors dk srcp.sec_no d 8⟩, ?_, rfl, rfl, hne,
          ?_, ?_⟩
  · rw [fork_copy_swapped, swap_copy, if_pos hs]
    rfl
  · intro i hi
    exact copy_sectors_outside dk srcp.sec_no d 8 (srcp.sec_no + (i : Int))
      (fun j hj => hdisj i j hi hj)
  · intro i hi
    exact copy_sectors_hit dk srcp.sec_no d 8 i hi (by omega) hdisj

/-- C9 (witness): fork-copying a parent page swapped at sector 0 on a pool
whose free list holds sector 8. -/
theorem swap_copy_fresh_identical_witness :
    swap_st_c9.swap_free = 8 :: [] ∧
    (0 : Int) ∈ swap_st_c9.swap_used ∧
    (8 : Int) ∉ swap_st_c9.swap_used ∧
    (∃ st1, fork_copy_swapped swap_st_c9 src_c9 dst_c9
        = some (st1, { dst_c9 with sec_no := 8 }) ∧
      st1.swap_free = [] ∧
      st1.swap_used = 8 :: swap_st_c9.swap_used ∧
      (8 : Int) ≠ src_c9.sec_no ∧
      (∀ i : Nat, i < 8 → st1.disk (src_c9.sec_no + (i : Int))
          = swap_st_c9.disk (src_c9.sec_no + (i : Int))) ∧
      (∀ i : Nat, i < 8 → st1.disk ((8 : Int) + (i : Int))
          = swap_st_c9.disk (src_c9.sec_no + (i : Int)))) :=
  ⟨rfl, by decide, by decide,
   swap_copy_fresh_identical swap_st_c9 src_c9 dst_c9 8 [] rfl (by decide)
     (by decide) ⟨0, rfl⟩ ⟨1, rfl⟩ (by decide)⟩

/-- C6: `file_backed_swap_in` returns false exactly when `file_read_at`
delivers fewer than `page_read_bytes` bytes (i.e. `min (read_bytes,
len - ofs) ≠ read_bytes`); on success the page holds the `read_bytes` file
bytes from `ofs` followed by `zero_bytes` zeros, and the MMU dirty bit
equals the value captured before the call. -/
theorem file_backed_swap_in_spec (aux : FAux) (st : FPageSt) :
    ((file_backed_swap_in aux st).1 = false ↔
      min aux.page_read_bytes (aux.file.len - aux.ofs) ≠ aux.page_read_bytes) ∧
    ((file_backed_swap_in aux st).1 = true →
      (∀ i, i < aux.page_read_bytes →
        (file_backed_swap_in aux st).2.mem i = aux.file.data (aux.ofs + i)) ∧
      (∀ i, aux.page_read_bytes ≤ i →
          i < aux.page_read_bytes + aux.page_zero_bytes →
        (file_backed_swap_in aux st).2.mem i = 0) ∧
      (file_backed_swap_in aux st).2.dirty = st.dirty) := by
  by_cases hshort :
      min aux.page_read_bytes (aux.file.len - aux.ofs) = aux.page_read_bytes
  · constructor
    · simp [file_backed_swap_in, file_read_at, hshort]
    · intro _
      refine ⟨?_, ?_, ?_⟩
      · intro i hi
        simp only [file_backed_swap_in, file_read_at, hshort, ne_eq,
          not_true_eq_false, if_false]
        rw [if_neg (by omega)]
        rw [if_pos (by omega)]
      · intro i h1 h2
        simp only [file_backed_swap_in, file_read_at, hshort, ne_eq,
          not_true_eq_false, if_false]
        rw [if_pos (by omega)]
      · simp [file_backed_swap_in, file_read_at, hshort]
  · constructor
    · simp [file_backed_swap_in, file_read_at, hshort]
    · intro htrue
      exfalso
      simp [file_backed_swap_in, file_read_at, hshort] at htrue

/-- C6 (witness): loading the second page of a 5000-byte file mapping
(904 read bytes at offset 4096, 3192 zero bytes) succeeds and the theorem's
success conclusions hold there. -/
theorem file_backed_swap_in_spec_witness :
    (file_backed_swap_in faux_c6 fpst_c6).1 = true ∧
    ((∀ i, i < faux_c6.page_read_bytes →
        (file_backed_swap_in faux_c6 fpst_c6).2.mem i
          = faux_c6.file.data (faux_c6.ofs + i)) ∧
      (∀ i, faux_c6.page_read_bytes ≤ i →
          i < faux_c6.page_read_bytes + faux_c6.page_zero_bytes →
        (file_backed_swap_in faux_c6 fpst_c6).2.mem i = 0) ∧
      (file_backed_swap_in faux_c6 fpst_c6).2.dirty = fpst_c6.dirty) :=
  ⟨by decide, (file_backed_swap_in_spec faux_c6 fpst_c6).2 (by decide)⟩

/-- C7: `file_backed_swap_out` issues a `file_write_at` (of
`page_read_bytes` bytes back to `(file, ofs)`, then clearing the MMU dirty
bit) exactly when the dirty bit is set; on a clean page no file I/O happens
and the file and page are untouched.  It always returns true. -/
theorem file_backed_swap_out_spec (aux : FAux) (st : FPageSt) :
    (file_backed_swap_out aux st).ret = true ∧
    (file_backed_swap_out aux st).wrote = st.dirty ∧
    (file_backed_swap_out aux st).page.dirty = false ∧
    (file_backed_swap_out aux st).file
      = (if st.dirty then
           file_write_at aux.file st.mem aux.page_read_bytes aux.ofs
         else aux.file) ∧
    (file_backed_swap_out aux st).page.mem = st.mem := by
  obtain ⟨m, d⟩ := st
  cases d <;> simp [file_backed_swap_out]

/-- C8 (counterexample): a user write fault at `addr = 0x1000` with
`rsp = 0x1008` satisfies the stack-growth test (`rsp - 8 == addr`), and the
handler then returns true — claiming the page — even though the present page
at `addr` is non-writable and the claim demands the handler return false for
every such address. -/
theorem fault_stack_heuristic_overrides_write_protect :
    spt_find_page spt_c8 (pg_round_down 0x1000)
      = some (uninit_new 0x1000 VM_ANON) ∧
    (uninit_new 0x1000 VM_ANON).writable = false ∧
    vm_try_handle_fault (fun _ => false) spt_c8 0x1008 0x1000 true true true
      = true := by
  decide

/-- C8 (amended): for every user write fault whose address does NOT satisfy
the stack-growth test and lies on a page present in the SPT with
`writable = false`, `vm_try_handle_fault` returns false (its caller then
terminates the process with exit code -1); when the stack-growth test holds
the handler returns true without consulting `writable`. -/
theorem fault_write_protect_nonstack (claimRes : Page → Bool) (spt : SPT)
    (rsp addr : Nat) (np : Bool) (page : Page)
    (hns : ¬ stack_heuristic rsp addr)
    (hfind : spt_find_page spt (pg_round_down addr) = some page)
    (hw : page.writable = false) :
    vm_try_handle_fault claimRes spt rsp addr true true np = false := by
  rw [vm_try_handle_fault, if_neg hns, hfind]
  simp [hw]

/-- C8 (witness): a user write to the non-writable page at `0x1000` with
`rsp = 0` (no stack heuristic) is rejected even when the claim dispatch
would succeed. -/
theorem fault_write_protect_nonstack_witness :
    (¬ stack_heuristic 0 0x1000) ∧
    spt_find_page spt_c8 (pg_round_down 0x1000)
      = some (uninit_new 0x1000 VM_ANON) ∧
    (uninit_new 0x1000 VM_ANON).writable = false ∧
    vm_try_handle_fault (fun _ => true) spt_c8 0 0x1000 true true false
      = false :=
  ⟨by decide, by decide, by decide,
   fault_write_protect_nonstack (fun _ => true) spt_c8 0 0x1000 false
     (uninit_new 0x1000 VM_ANON) (by decide) (by decide) (by decide)⟩

/-- C10: `vm_claim_page (va)` builds a fresh calloc-zeroed page whose only
populated field is `va` (no dispatch table, `writable = false`), hands
exactly that page (frame-linked by the claim) to `vm_do_claim_page`, and
leaves the SPT — in particular any page previously allocated at `va` —
untouched. -/
theorem vm_claim_page_fresh_spt_untouched (swapIn : Page → Nat → Bool)
    (st : VMState) (va kva : Nat) :
    vm_claim_page_fresh va
      = { va := va
          writable := false
          page_cnt := 0
          sec_no := 0
          operations := none
          uninit_type := 0
          frame := none } ∧
    (vm_claim_page swapIn st va kva).1.spt = st.spt ∧
    (vm_claim_page swapIn st va kva).2.1
      = { vm_claim_page_fresh va with frame := some kva } :=
  ⟨rfl, rfl, rfl⟩

end PintosVM
